import Mathlib

/-!
Verification of the OBSIDIAN MM core engine: baseline statistics, scoring,
regime classification, and CORE/FOCUS universe management.

Numeric values are modelled over `ℚ`; a missing value (Python `NaN`/`None`)
is modelled as `Option.none`.  Python dicts become ordered association
lists.  The sample standard deviation involves a square root, which does
not exist inside `ℚ`; the square-root function is therefore passed as a
parameter, and the theorems that mention it carry its defining property
(`sqrt x = 0 ↔ x = 0` on nonnegative inputs) as a hypothesis.
-/

/-- Lookup in an association list modelling `dict.get(key, NaN)`:
an absent key and a stored `NaN` both yield `none`. -/
def lookupF (m : List (String × Option ℚ)) (k : String) : Option ℚ :=
  match m.lookup k with
  | some v => v
  | none => none

/-- Lookup in an association list modelling `dict.get(key, d)`. -/
def lookupD (m : List (String × ℚ)) (k : String) (d : ℚ) : ℚ :=
  (m.lookup k).getD d

/- ## Classifier (src/obsidian/engine/classifier.py) -/

/-- Market microstructure regime types, in priority order. -/
inductive RegimeType
  | GAMMA_POSITIVE
  | GAMMA_NEGATIVE
  | DARK_DOMINANT
  | ABSORPTION
  | DISTRIBUTION
  | NEUTRAL
  | UNDETERMINED
deriving DecidableEq

/-- Human-readable interpretation of a regime (`RegimeType.get_interpretation`). -/
def RegimeType.get_interpretation : RegimeType → String
  | .GAMMA_POSITIVE => "Dealers are significantly long gamma. Their hedging activity compresses the intraday range, resulting in below-normal price efficiency. Volatility suppression regime."
  | .GAMMA_NEGATIVE => "Dealers are significantly short gamma. Their hedging amplifies directional moves. Above-normal price impact per unit volume signals a liquidity vacuum."
  | .DARK_DOMINANT => "More than 70% of volume is executing off-exchange, with block-print intensity elevated above +1 sigma. Consistent with institutional positioning via dark liquidity."
  | .ABSORPTION => "Net delta exposure is significantly negative (sell pressure), but the daily close-to-close move is no worse than -0.5%, and dark pool participation exceeds 50%. Passive buying is absorbing the sell flow."
  | .DISTRIBUTION => "Net delta exposure is significantly positive (buy pressure), but the daily move is no better than +0.5%. Supply is being distributed into strength without upside follow-through."
  | .NEUTRAL => "No single microstructure pattern dominates. The instrument is in a balanced or ambiguous state."
  | .UNDETERMINED => "System cannot classify. Diagnosis withheld."

/-- Result of regime classification. -/
structure RegimeResult where
  regime : RegimeType
  triggering_conditions : List (String × ℚ × ℚ × Bool)
  interpretation : String
  baseline_sufficient : Bool
deriving DecidableEq

def Z_GEX_THRESHOLD : ℚ := 1.5
def Z_BLOCK_THRESHOLD : ℚ := 1.0
def Z_DEX_THRESHOLD : ℚ := 1.0
def DARK_SHARE_DD_THRESHOLD : ℚ := 0.70
def DARK_SHARE_ABS_THRESHOLD : ℚ := 0.50
def PRICE_MOVE_ABS_CAP : ℚ := -0.005
def PRICE_MOVE_DIST_CAP : ℚ := 0.005

/-- Priority-1 rule: Z_GEX > +1.5 and efficiency < its baseline median. -/
def tryGammaPositive (z_gex efficiency efficiency_median : Option ℚ) :
    Option RegimeResult :=
  match z_gex, efficiency, efficiency_median with
  | some zg, some eff, some em =>
    if zg > Z_GEX_THRESHOLD ∧ eff < em then
      some { regime := .GAMMA_POSITIVE,
             triggering_conditions :=
               [("Z_GEX", zg, Z_GEX_THRESHOLD, true),
                ("Efficiency_vs_median", eff, em, true)],
             interpretation := RegimeType.GAMMA_POSITIVE.get_interpretation,
             baseline_sufficient := true }
    else none
  | _, _, _ => none

/-- Priority-2 rule: Z_GEX < -1.5 and impact > its baseline median. -/
def tryGammaNegative (z_gex impact impact_median : Option ℚ) :
    Option RegimeResult :=
  match z_gex, impact, impact_median with
  | some zg, some imp, some im =>
    if zg < -Z_GEX_THRESHOLD ∧ imp > im then
      some { regime := .GAMMA_NEGATIVE,
             triggering_conditions :=
               [("Z_GEX", zg, -Z_GEX_THRESHOLD, true),
                ("Impact_vs_median", imp, im, true)],
             interpretation := RegimeType.GAMMA_NEGATIVE.get_interpretation,
             baseline_sufficient := true }
    else none
  | _, _, _ => none

/-- Priority-3 rule: dark share > 0.70 and Z_block > +1.0. -/
def tryDarkDominant (dark_share z_block : Option ℚ) : Option RegimeResult :=
  match dark_share, z_block with
  | some ds, some zb =>
    if ds > DARK_SHARE_DD_THRESHOLD ∧ zb > Z_BLOCK_THRESHOLD then
      some { regime := .DARK_DOMINANT,
             triggering_conditions :=
               [("DarkShare", ds, DARK_SHARE_DD_THRESHOLD, true),
                ("Z_block", zb, Z_BLOCK_THRESHOLD, true)],
             interpretation := RegimeType.DARK_DOMINANT.get_interpretation,
             baseline_sufficient := true }
    else none
  | _, _ => none

/-- Priority-4 rule: Z_DEX < -1.0, return >= -0.005, dark share > 0.50. -/
def tryAbsorption (z_dex daily_return dark_share : Option ℚ) :
    Option RegimeResult :=
  match z_dex, daily_return, dark_share with
  | some zd, some ret, some ds =>
    if zd < -Z_DEX_THRESHOLD ∧ ret ≥ PRICE_MOVE_ABS_CAP ∧
        ds > DARK_SHARE_ABS_THRESHOLD then
      some { regime := .ABSORPTION,
             triggering_conditions :=
               [("Z_DEX", zd, -Z_DEX_THRESHOLD, true),
                ("Daily_return", ret, PRICE_MOVE_ABS_CAP, true),
                ("DarkShare", ds, DARK_SHARE_ABS_THRESHOLD, true)],
             interpretation := RegimeType.ABSORPTION.get_interpretation,
             baseline_sufficient := true }
    else none
  | _, _, _ => none

/-- Priority-5 rule: Z_DEX > +1.0 and return <= +0.005. -/
def tryDistribution (z_dex daily_return : Option ℚ) : Option RegimeResult :=
  match z_dex, daily_return with
  | some zd, some ret =>
    if zd > Z_DEX_THRESHOLD ∧ ret ≤ PRICE_MOVE_DIST_CAP then
      some { regime := .DISTRIBUTION,
             triggering_conditions :=
               [("Z_DEX", zd, Z_DEX_THRESHOLD, true),
                ("Daily_return", ret, PRICE_MOVE_DIST_CAP, true)],
             interpretation := RegimeType.DISTRIBUTION.get_interpretation,
             baseline_sufficient := true }
    else none
  | _, _ => none

/-- Result returned when the baseline is insufficient (priority 7). -/
def undeterminedResult : RegimeResult :=
  { regime := .UNDETERMINED,
    triggering_conditions := [],
    interpretation := RegimeType.UNDETERMINED.get_interpretation,
    baseline_sufficient := false }

/-- Fallback result when no rule matched (priority 6). -/
def neutralResult : RegimeResult :=
  { regime := .NEUTRAL,
    triggering_conditions := [],
    interpretation := RegimeType.NEUTRAL.get_interpretation,
    baseline_sufficient := true }

/-- `Classifier.classify`: priority-ordered rule chain, first match wins;
`UNDETERMINED` short-circuits when the baseline is insufficient. -/
def classify (z_scores raw_features baseline_medians : List (String × Option ℚ))
    (daily_return : Option ℚ) (baseline_sufficient : Bool) : RegimeResult :=
  if baseline_sufficient = false then undeterminedResult
  else
    let z_gex := lookupF z_scores "gex"
    let z_dex := lookupF z_scores "dex"
    let z_block := lookupF z_scores "block_intensity"
    let dark_share := lookupF raw_features "dark_share"
    let efficiency := lookupF raw_features "efficiency"
    let impact := lookupF raw_features "impact"
    let efficiency_median := lookupF baseline_medians "efficiency"
    let impact_median := lookupF baseline_medians "impact"
    ((tryGammaPositive z_gex efficiency efficiency_median).orElse fun _ =>
      (tryGammaNegative z_gex impact impact_median).orElse fun _ =>
        (tryDarkDominant dark_share z_block).orElse fun _ =>
          (tryAbsorption z_dex daily_return dark_share).orElse fun _ =>
            tryDistribution z_dex daily_return).getD neutralResult

/- ## Scorer (src/obsidian/engine/scoring.py) -/

/-- Interpretation bands for unusualness scores. -/
inductive InterpretationBand
  | NORMAL
  | ELEVATED
  | UNUSUAL
  | EXTREME
deriving DecidableEq

/-- Fixed diagnostic weights (`FEATURE_WEIGHTS`). -/
def FEATURE_WEIGHTS : List (String × ℚ) :=
  [("dark_share", 0.25), ("gex", 0.25), ("venue_mix", 0.20),
   ("block_intensity", 0.15), ("iv_rank", 0.15)]

/-- Result of unusualness scoring for a single time point.
`percentile_score = none` models `NaN`. -/
structure ScoringResult where
  raw_score : ℚ
  percentile_score : Option ℚ
  interpretation : InterpretationBand
  feature_contributions : List (String × ℚ)
  excluded_features : List String
deriving DecidableEq

/-- Scoring engine configuration. -/
structure Scorer where
  window : Nat
  weights : List (String × ℚ)
deriving DecidableEq

/-- `Scorer.__init__`: raises on `window < 1`; a weight sum outside
`[0.99, 1.01]` only emits a `UserWarning` (returned here as the `Bool`
component) — the object is still created. -/
def Scorer.init (window : Nat) (weights : Option (List (String × ℚ))) :
    Except String (Scorer × Bool) :=
  if window < 1 then
    Except.error "Window must be >= 1"
  else
    let w := weights.getD FEATURE_WEIGHTS
    let weight_sum := (w.map Prod.snd).sum
    Except.ok (⟨window, w⟩, !(decide (0.99 ≤ weight_sum) && decide (weight_sum ≤ 1.01)))

/-- One step of the `compute_raw_score` loop body: skip excluded features,
skip `NaN` z-scores, skip zero-weight features, otherwise accumulate
`w * |z|` into the running sum and the contribution map. -/
def rawScoreStep (weights : List (String × ℚ)) (excluded : List String)
    (acc : ℚ × List (String × ℚ)) (p : String × Option ℚ) :
    ℚ × List (String × ℚ) :=
  if p.1 ∈ excluded then acc
  else
    match p.2 with
    | none => acc
    | some z =>
      let weight := lookupD weights p.1 0
      if weight = 0 then acc
      else (acc.1 + weight * |z|, acc.2 ++ [(p.1, weight * |z|)])

/-- `Scorer.compute_raw_score`: weighted absolute z-score sum with
per-feature contributions. -/
def Scorer.compute_raw_score (s : Scorer) (z_scores : List (String × Option ℚ))
    (excluded_features : Option (List String)) : ℚ × List (String × ℚ) :=
  let excluded := excluded_features.getD []
  z_scores.foldl (rawScoreStep s.weights excluded) (0, [])

/-- Window slice at index `i`: expanding (all data through `i`) while
`i < window`, otherwise the trailing `window` observations ending at `i`.
This windowing rule is shared verbatim by `Baseline.compute_statistics`
and `Scorer.compute_percentile_scores` in the source. -/
def windowSlice (window : Nat) (use_expanding : Bool)
    (data : List (Option ℚ)) (i : Nat) : List (Option ℚ) :=
  if use_expanding && decide (i < window) then data.take (i + 1)
  else (data.take (i + 1)).drop (i + 1 - window)

/-- Percentile-rank body at one index of `compute_percentile_scores`:
drop `NaN`s from the window, then `(count of values <= current) /
(window size) * 100`; `NaN` in or empty window out gives `NaN`. -/
def percAt (window : Nat) (use_expanding : Bool)
    (raw_scores : List (Option ℚ)) (i : Nat) : Option ℚ :=
  let vals := (windowSlice window use_expanding raw_scores i).filterMap id
  if vals.length = 0 then none
  else
    match raw_scores.get? i with
    | some (some c) =>
      some ((((vals.filter (fun v => decide (v ≤ c))).length : ℚ) / (vals.length : ℚ)) * 100)
    | _ => none

/-- `Scorer.compute_percentile_scores`: percentile rank of every raw score
within its own expanding/rolling window. -/
def Scorer.compute_percentile_scores (s : Scorer) (raw_scores : List (Option ℚ))
    (use_expanding : Bool) : List (Option ℚ) :=
  (List.range raw_scores.length).map (percAt s.window use_expanding raw_scores)

/-- `Scorer.get_interpretation`: half-open bands, `NaN` defaults to Normal. -/
def Scorer.get_interpretation (_s : Scorer) (percentile_score : Option ℚ) :
    InterpretationBand :=
  match percentile_score with
  | none => .NORMAL
  | some v =>
    if v < 30 then .NORMAL
    else if v < 60 then .ELEVATED
    else if v < 80 then .UNUSUAL
    else .EXTREME

/-- `Scorer.compute_score`: raw score, then percentile of the raw score
appended to the provided history (`NaN` when no history is given). -/
def Scorer.compute_score (s : Scorer) (z_scores : List (String × Option ℚ))
    (historical_raw_scores : Option (List (Option ℚ)))
    (excluded_features : Option (List String)) : ScoringResult :=
  let rc := s.compute_raw_score z_scores excluded_features
  let percentile_score : Option ℚ :=
    match historical_raw_scores with
    | some h =>
      match (s.compute_percentile_scores (h ++ [some rc.1]) true).getLast? with
      | some p => p
      | none => none
    | none => none
  { raw_score := rc.1,
    percentile_score := percentile_score,
    interpretation := s.get_interpretation percentile_score,
    feature_contributions := rc.2,
    excluded_features := excluded_features.getD [] }

/- ## Baseline (src/obsidian/engine/baseline.py) -/

/-- Mean of a list of valid observations; `none` for the empty list
(pandas mean of an all-`NaN` window). -/
def meanQ (l : List ℚ) : Option ℚ :=
  if l.length = 0 then none else some (l.sum / (l.length : ℚ))

/-- Sample variance (ddof = 1); `none` when fewer than two observations. -/
def sampleVarQ (l : List ℚ) : Option ℚ :=
  if l.length < 2 then none
  else some ((l.map (fun x => (x - l.sum / (l.length : ℚ)) ^ 2)).sum / ((l.length : ℚ) - 1))

/-- Median of a list of valid observations (pandas: middle of the sorted
values, mean of the two middles for even length). -/
def medianQ (l : List ℚ) : Option ℚ :=
  let sorted := l.insertionSort (· ≤ ·)
  match sorted.get? (l.length / 2), sorted.get? ((l.length - 1) / 2) with
  | some a, some b => some ((a + b) / 2)
  | _, _ => none

/-- Rolling baseline statistics for one feature at one date. -/
structure BaselineStats where
  mean : Option ℚ
  std : Option ℚ
  median : Option ℚ
  n_valid : Nat
  is_valid : Bool
deriving DecidableEq

/-- `BaselineStats.__post_init__`: a `NaN` mean or std forces
`is_valid = false` regardless of the flag passed in. -/
def mkBaselineStats (mean std median : Option ℚ) (n_valid : Nat)
    (is_valid : Bool) : BaselineStats :=
  { mean := mean, std := std, median := median, n_valid := n_valid,
    is_valid := if mean.isNone || std.isNone then false else is_valid }

/-- Baseline computation engine configuration. -/
structure Baseline where
  window : Nat
  min_periods : Nat
  drift_threshold : ℚ
deriving DecidableEq

/-- `Baseline.__init__`: fail-fast validation of construction parameters. -/
def Baseline.init (window min_periods : Nat) (drift_threshold : ℚ) :
    Except String Baseline :=
  if window < min_periods then
    Except.error "Window must be >= min_periods"
  else if min_periods < 2 then
    Except.error "min_periods must be >= 2 for std calculation"
  else if ¬(0 < drift_threshold ∧ drift_threshold ≤ 1) then
    Except.error "drift_threshold must be in (0, 1]"
  else
    Except.ok ⟨window, min_periods, drift_threshold⟩

/-- Statistics body at one index of `compute_statistics`: count the
non-`NaN` observations of the window; compute mean/std/median only when
the count reaches `min_periods`.  `sq` is the square-root function used
for the sample standard deviation. -/
def statsAt (b : Baseline) (sq : ℚ → ℚ) (use_expanding : Bool)
    (data : List (Option ℚ)) (i : Nat) : BaselineStats :=
  let vals := (windowSlice b.window use_expanding data i).filterMap id
  if b.min_periods ≤ vals.length then
    mkBaselineStats (meanQ vals) ((sampleVarQ vals).map sq) (medianQ vals)
      vals.length true
  else
    mkBaselineStats none none none vals.length false

/-- `Baseline.compute_statistics`: per-index rolling statistics with
expanding cold start. -/
def Baseline.compute_statistics (b : Baseline) (sq : ℚ → ℚ)
    (data : List (Option ℚ)) (use_expanding : Bool) : List BaselineStats :=
  (List.range data.length).map (statsAt b sq use_expanding data)

/-- Z-score body at one index: `(x - mean) / std`, `NaN` when the input,
the mean, or the std is `NaN`, or when the std is exactly zero (numpy
`inf` replaced by `NaN`). -/
def zAt (b : Baseline) (sq : ℚ → ℚ) (use_expanding : Bool)
    (data : List (Option ℚ)) (i : Nat) : Option ℚ :=
  match data.get? i with
  | some (some x) =>
    let st := statsAt b sq use_expanding data i
    match st.mean, st.std with
    | some m, some s => if s = 0 then none else some ((x - m) / s)
    | _, _ => none
  | _ => none

/-- `Baseline.compute_z_scores`: z-scores with expanding window cold start,
guarded against missing inputs and zero standard deviation. -/
def Baseline.compute_z_scores (b : Baseline) (sq : ℚ → ℚ)
    (data : List (Option ℚ)) (use_expanding : Bool) : List (Option ℚ) :=
  (List.range data.length).map (zAt b sq use_expanding data)

/- ## UniverseManager (src/obsidian/universe/manager.py) -/

/-- ASCII uppercase of a character (Python `str.upper()` on ASCII). -/
def charUpper (c : Char) : Char :=
  if 97 ≤ c.toNat ∧ c.toNat ≤ 122 then Char.ofNat (c.toNat - 32) else c

/-- ASCII uppercase of a string, modelling Python `ticker.upper()`
(tickers are ASCII). -/
def pyUpper (s : String) : String := ⟨s.data.map charUpper⟩

/-- CORE tickers — always active. -/
def CORE_TICKERS : List String := ["SPY", "QQQ", "IWM", "DIA"]

/-- Reason for a ticker being in FOCUS. -/
inductive FocusReason
  | structural
  | stress
  | event
deriving DecidableEq

/-- Metadata for why a ticker is in FOCUS. -/
structure FocusEntry where
  ticker : String
  entry_date : Nat
  reason : FocusReason
  details : String
  days_inactive : Nat
deriving DecidableEq

/-- Current state of the universe: fixed CORE plus the mutable FOCUS map
(insertion-ordered association list, like a Python dict). -/
structure UniverseState where
  core : List String
  focus : List (String × FocusEntry)
deriving DecidableEq

/-- Initial state: CORE tickers only, empty FOCUS. -/
def initialUniverseState : UniverseState :=
  { core := CORE_TICKERS, focus := [] }

/-- Reset the inactivity counter of an existing FOCUS entry
(`focus[ticker].days_inactive = 0`). -/
def resetInactive (focus : List (String × FocusEntry)) (t : String) :
    List (String × FocusEntry) :=
  focus.map (fun p => if p.1 = t then (p.1, { p.2 with days_inactive := 0 }) else p)

/-- `UniverseManager.promote_structural`: promote by index-holding rank.
Threshold 15 for SPY, 10 for every other index.  Re-promotion of an
existing FOCUS ticker only resets its inactivity counter. -/
def promote_structural (s : UniverseState) (ticker index : String)
    (rank : Nat) (entry_date : Nat) : Bool × UniverseState :=
  let t := pyUpper ticker
  if (s.focus.lookup t).isSome then
    (false, { s with focus := resetInactive s.focus t })
  else
    let threshold : Nat := if index = "SPY" then 15 else 10
    if threshold < rank then (false, s)
    else
      (true, { s with focus := s.focus ++
        [(t, { ticker := t, entry_date := entry_date,
               reason := FocusReason.structural,
               details := "Rank " ++ toString rank ++ " in " ++ index,
               days_inactive := 0 })] })

/-- Stress reasons collected by `promote_if_stressed`; `none` arguments
model Python `None` and never trigger. -/
def stressReasons (unusualness z_gex dark_share z_block : Option ℚ) :
    List String :=
  (match unusualness with
   | some u => if 70 ≤ u then ["U=" ++ toString u] else []
   | none => []) ++
  (match z_gex with
   | some zg => if 2 ≤ |zg| then ["Z_GEX=" ++ toString zg] else []
   | none => []) ++
  (match dark_share with
   | some ds => if 0.65 ≤ ds then ["DarkShare=" ++ toString ds] else []
   | none => []) ++
  (match z_block with
   | some zb => if 2 ≤ |zb| then ["Z_block=" ++ toString zb] else []
   | none => [])

/-- `UniverseManager.promote_if_stressed`: promote when any stress
condition holds; re-promotion resets the inactivity counter. -/
def promote_if_stressed (s : UniverseState) (ticker : String)
    (unusualness z_gex dark_share : Option ℚ) (entry_date : Nat)
    (z_block : Option ℚ) : Bool × UniverseState :=
  let t := pyUpper ticker
  let reasons := stressReasons unusualness z_gex dark_share z_block
  if reasons = [] then (false, s)
  else if (s.focus.lookup t).isSome then
    (false, { s with focus := resetInactive s.focus t })
  else
    (true, { s with focus := s.focus ++
      [(t, { ticker := t, entry_date := entry_date,
             reason := FocusReason.stress,
             details := String.intercalate ", " reasons,
             days_inactive := 0 })] })

/-- `UniverseManager.promote_event`: promote due to a calendar event;
re-promotion resets the inactivity counter. -/
def promote_event (s : UniverseState) (ticker event_type : String)
    (event_date entry_date : Nat) : Bool × UniverseState :=
  let t := pyUpper ticker
  if (s.focus.lookup t).isSome then
    (false, { s with focus := resetInactive s.focus t })
  else
    (true, { s with focus := s.focus ++
      [(t, { ticker := t, entry_date := entry_date,
             reason := FocusReason.event,
             details := event_type ++ " on " ++ toString event_date,
             days_inactive := 0 })] })

/-- Per-index thresholds used by the structural-fetch layer
(`STRUCTURAL_THRESHOLDS` in src/obsidian/universe/structural.py);
IWM is intentionally absent, so the fetch layer never produces IWM
constituents. -/
def STRUCTURAL_THRESHOLDS : List (String × Nat) :=
  [("SPY", 15), ("QQQ", 10), ("DIA", 10)]

/-- Eviction ranking key of a FOCUS ticker: (unusualness score,
absolute Z_GEX), each defaulting to 0 when absent. -/
def capKey (scores z_gex_values : List (String × ℚ)) (t : String) : ℚ × ℚ :=
  (lookupD scores t 0, |lookupD z_gex_values t 0|)

/-- Lexicographic order on ranking keys. -/
def lexLe (p q : ℚ × ℚ) : Prop :=
  p.1 < q.1 ∨ (p.1 = q.1 ∧ p.2 ≤ q.2)

instance (p q : ℚ × ℚ) : Decidable (lexLe p q) := by
  unfold lexLe
  infer_instance

/-- Sort relation for cap enforcement: `a` precedes `b` when `a`'s key is
lexicographically at least `b`'s (descending sort, stable on ties). -/
def capRel (scores z_gex_values : List (String × ℚ)) (a b : String) : Prop :=
  lexLe (capKey scores z_gex_values b) (capKey scores z_gex_values a)

instance (scores z_gex_values : List (String × ℚ)) :
    DecidableRel (capRel scores z_gex_values) := fun a b => by
  unfold capRel
  infer_instance

/-- Keys of the structural FOCUS entries, in insertion order. -/
def structuralKeys (s : UniverseState) : List String :=
  (s.focus.filter (fun p => p.2.reason = FocusReason.structural)).map Prod.fst

/-- Keys of the non-structural FOCUS entries, in insertion order. -/
def nonStructuralKeys (s : UniverseState) : List String :=
  (s.focus.map Prod.fst).filter (fun t => decide (¬ t ∈ structuralKeys s))

/-- `UniverseManager.enforce_focus_cap`: keep every structural entry,
fill the remaining slots with the non-structural entries ranked by
(score desc, |Z_GEX| desc), evict the rest.  No eviction when FOCUS is
within the cap or when structural entries alone reach the cap. -/
def enforce_focus_cap (s : UniverseState) (max_focus : Nat)
    (scores z_gex_values : List (String × ℚ)) : List String × UniverseState :=
  if s.focus.length ≤ max_focus then ([], s)
  else
    if max_focus ≤ (structuralKeys s).length then ([], s)
    else
      let non_structural_slots := max_focus - (structuralKeys s).length
      let sorted := (nonStructuralKeys s).insertionSort (capRel scores z_gex_values)
      let to_remove := sorted.drop non_structural_slots
      (to_remove,
       { s with focus := s.focus.filter (fun p => decide (¬ p.1 ∈ to_remove)) })

/- ## Classifier lemmas -/

/-- Rule-1 firing condition as a proposition. -/
def gammaPosCond (z_gex efficiency efficiency_median : Option ℚ) : Prop :=
  ∃ zg eff em, z_gex = some zg ∧ efficiency = some eff ∧
    efficiency_median = some em ∧ zg > Z_GEX_THRESHOLD ∧ eff < em

/-- Rule-2 firing condition as a proposition. -/
def gammaNegCond (z_gex impact impact_median : Option ℚ) : Prop :=
  ∃ zg imp im, z_gex = some zg ∧ impact = some imp ∧
    impact_median = some im ∧ zg < -Z_GEX_THRESHOLD ∧ imp > im

/-- Rule-3 firing condition as a proposition. -/
def darkDominantCond (dark_share z_block : Option ℚ) : Prop :=
  ∃ ds zb, dark_share = some ds ∧ z_block = some zb ∧
    ds > DARK_SHARE_DD_THRESHOLD ∧ zb > Z_BLOCK_THRESHOLD

/-- Rule-4 firing condition as a proposition. -/
def absorptionCond (z_dex daily_return dark_share : Option ℚ) : Prop :=
  ∃ zd ret ds, z_dex = some zd ∧ daily_return = some ret ∧
    dark_share = some ds ∧ zd < -Z_DEX_THRESHOLD ∧
    ret ≥ PRICE_MOVE_ABS_CAP ∧ ds > DARK_SHARE_ABS_THRESHOLD

/-- Rule-5 firing condition as a proposition. -/
def distributionCond (z_dex daily_return : Option ℚ) : Prop :=
  ∃ zd ret, z_dex = some zd ∧ daily_return = some ret ∧
    zd > Z_DEX_THRESHOLD ∧ ret ≤ PRICE_MOVE_DIST_CAP

lemma tryGammaPositive_eq_none_iff (a b c : Option ℚ) :
    tryGammaPositive a b c = none ↔ ¬ gammaPosCond a b c := by
  cases a <;> cases b <;> cases c <;>
    simp [tryGammaPositive, gammaPosCond] <;> split <;> simp_all

lemma tryGammaNegative_eq_none_iff (a b c : Option ℚ) :
    tryGammaNegative a b c = none ↔ ¬ gammaNegCond a b c := by
  cases a <;> cases b <;> cases c <;>
    simp [tryGammaNegative, gammaNegCond] <;> split <;> simp_all

lemma tryDarkDominant_eq_none_iff (a b : Option ℚ) :
    tryDarkDominant a b = none ↔ ¬ darkDominantCond a b := by
  cases a <;> cases b <;>
    simp [tryDarkDominant, darkDominantCond] <;> split <;> simp_all

lemma tryAbsorption_eq_none_iff (a b c : Option ℚ) :
    tryAbsorption a b c = none ↔ ¬ absorptionCond a b c := by
  cases a <;> cases b <;> cases c <;>
    simp [tryAbsorption, absorptionCond] <;> split <;> simp_all

lemma tryDistribution_eq_none_iff (a b : Option ℚ) :
    tryDistribution a b = none ↔ ¬ distributionCond a b := by
  cases a <;> cases b <;>
    simp [tryDistribution, distributionCond] <;> split <;> simp_all

lemma tryGammaPositive_regime {a b c : Option ℚ} {r : RegimeResult}
    (h : tryGammaPositive a b c = some r) : r.regime = RegimeType.GAMMA_POSITIVE := by
  cases a <;> cases b <;> cases c <;>
    simp [tryGammaPositive] at h <;> rcases h with ⟨-, h⟩ <;> simp [← h]

lemma tryGammaNegative_regime {a b c : Option ℚ} {r : RegimeResult}
    (h : tryGammaNegative a b c = some r) : r.regime = RegimeType.GAMMA_NEGATIVE := by
  cases a <;> cases b <;> cases c <;>
    simp [tryGammaNegative] at h <;> rcases h with ⟨-, h⟩ <;> simp [← h]

lemma tryDarkDominant_regime {a b : Option ℚ} {r : RegimeResult}
    (h : tryDarkDominant a b = some r) : r.regime = RegimeType.DARK_DOMINANT := by
  cases a <;> cases b <;>
    simp [tryDarkDominant] at h <;> rcases h with ⟨-, h⟩ <;> simp [← h]

lemma tryAbsorption_regime {a b c : Option ℚ} {r : RegimeResult}
    (h : tryAbsorption a b c = some r) : r.regime = RegimeType.ABSORPTION := by
  cases a <;> cases b <;> cases c <;>
    simp [tryAbsorption] at h <;> rcases h with ⟨-, h⟩ <;> simp [← h]

lemma tryDistribution_regime {a b : Option ℚ} {r : RegimeResult}
    (h : tryDistribution a b = some r) : r.regime = RegimeType.DISTRIBUTION := by
  cases a <;> cases b <;>
    simp [tryDistribution] at h <;> rcases h with ⟨-, h⟩ <;> simp [← h]

lemma classify_false_eq (zs rf bm : List (String × Option ℚ)) (ret : Option ℚ) :
    classify zs rf bm ret false = undeterminedResult := rfl

lemma classify_chain (zs rf bm : List (String × Option ℚ)) (ret : Option ℚ) :
    ((classify zs rf bm ret true).regime = RegimeType.GAMMA_POSITIVE ↔
      gammaPosCond (lookupF zs "gex") (lookupF rf "efficiency") (lookupF bm "efficiency")) ∧
    ((classify zs rf bm ret true).regime = RegimeType.GAMMA_NEGATIVE ↔
      ¬ gammaPosCond (lookupF zs "gex") (lookupF rf "efficiency") (lookupF bm "efficiency") ∧
      gammaNegCond (lookupF zs "gex") (lookupF rf "impact") (lookupF bm "impact")) ∧
    ((classify zs rf bm ret true).regime = RegimeType.DARK_DOMINANT ↔
      ¬ gammaPosCond (lookupF zs "gex") (lookupF rf "efficiency") (lookupF bm "efficiency") ∧
      ¬ gammaNegCond (lookupF zs "gex") (lookupF rf "impact") (lookupF bm "impact") ∧
      darkDominantCond (lookupF rf "dark_share") (lookupF zs "block_intensity")) ∧
    ((classify zs rf bm ret true).regime = RegimeType.ABSORPTION ↔
      ¬ gammaPosCond (lookupF zs "gex") (lookupF rf "efficiency") (lookupF bm "efficiency") ∧
      ¬ gammaNegCond (lookupF zs "gex") (lookupF rf "impact") (lookupF bm "impact") ∧
      ¬ darkDominantCond (lookupF rf "dark_share") (lookupF zs "block_intensity") ∧
      absorptionCond (lookupF zs "dex") ret (lookupF rf "dark_share")) ∧
    ((classify zs rf bm ret true).regime = RegimeType.DISTRIBUTION ↔
      ¬ gammaPosCond (lookupF zs "gex") (lookupF rf "efficiency") (lookupF bm "efficiency") ∧
      ¬ gammaNegCond (lookupF zs "gex") (lookupF rf "impact") (lookupF bm "impact") ∧
      ¬ darkDominantCond (lookupF rf "dark_share") (lookupF zs "block_intensity") ∧
      ¬ absorptionCond (lookupF zs "dex") ret (lookupF rf "dark_share") ∧
      distributionCond (lookupF zs "dex") ret) ∧
    ((classify zs rf bm ret true).regime = RegimeType.NEUTRAL ↔
      ¬ gammaPosCond (lookupF zs "gex") (lookupF rf "efficiency") (lookupF bm "efficiency") ∧
      ¬ gammaNegCond (lookupF zs "gex") (lookupF rf "impact") (lookupF bm "impact") ∧
      ¬ darkDominantCond (lookupF rf "dark_share") (lookupF zs "block_intensity") ∧
      ¬ absorptionCond (lookupF zs "dex") ret (lookupF rf "dark_share") ∧
      ¬ distributionCond (lookupF zs "dex") ret) := by
  have hc : classify zs rf bm ret true =
      ((tryGammaPositive (lookupF zs "gex") (lookupF rf "efficiency")
          (lookupF bm "efficiency")).orElse fun _ =>
        (tryGammaNegative (lookupF zs "gex") (lookupF rf "impact")
            (lookupF bm "impact")).orElse fun _ =>
          (tryDarkDominant (lookupF rf "dark_share")
              (lookupF zs "block_intensity")).orElse fun _ =>
            (tryAbsorption (lookupF zs "dex") ret
                (lookupF rf "dark_share")).orElse fun _ =>
              tryDistribution (lookupF zs "dex") ret).getD neutralResult := rfl
  rcases h1 : tryGammaPositive (lookupF zs "gex") (lookupF rf "efficiency")
      (lookupF bm "efficiency") with _ | r1
  · have n1 := (tryGammaPositive_eq_none_iff _ _ _).mp h1
    rcases h2 : tryGammaNegative (lookupF zs "gex") (lookupF rf "impact")
        (lookupF bm "impact") with _ | r2
    · have n2 := (tryGammaNegative_eq_none_iff _ _ _).mp h2
      rcases h3 : tryDarkDominant (lookupF rf "dark_share")
          (lookupF zs "block_intensity") with _ | r3
      · have n3 := (tryDarkDominant_eq_none_iff _ _).mp h3
        rcases h4 : tryAbsorption (lookupF zs "dex") ret
            (lookupF rf "dark_share") with _ | r4
        · have n4 := (tryAbsorption_eq_none_iff _ _ _).mp h4
          rcases h5 : tryDistribution (lookupF zs "dex") ret with _ | r5
          · have n5 := (tryDistribution_eq_none_iff _ _).mp h5
            rw [hc, h1, h2, h3, h4, h5]
            refine ⟨?_, ?_, ?_, ?_, ?_, ?_⟩ <;>
              simp [Option.orElse, neutralResult] <;> tauto
          · have s5 : distributionCond (lookupF zs "dex") ret := by
              by_contra hn
              rw [(tryDistribution_eq_none_iff _ _).mpr hn] at h5
              exact Option.noConfusion h5
            have hreg := tryDistribution_regime h5
            rw [hc, h1, h2, h3, h4, h5]
            refine ⟨?_, ?_, ?_, ?_, ?_, ?_⟩ <;>
              simp [Option.orElse, hreg] <;> tauto
        · have s4 : absorptionCond (lookupF zs "dex") ret (lookupF rf "dark_share") := by
            by_contra hn
            rw [(tryAbsorption_eq_none_iff _ _ _).mpr hn] at h4
            exact Option.noConfusion h4
          have hreg := tryAbsorption_regime h4
          rw [hc, h1, h2, h3, h4]
          refine ⟨?_, ?_, ?_, ?_, ?_, ?_⟩ <;>
            simp [Option.orElse, hreg] <;> tauto
      · have s3 : darkDominantCond (lookupF rf "dark_share") (lookupF zs "block_intensity") := by
          by_contra hn
          rw [(tryDarkDominant_eq_none_iff _ _).mpr hn] at h3
          exact Option.noConfusion h3
        have hreg := tryDarkDominant_regime h3
        rw [hc, h1, h2, h3]
        refine ⟨?_, ?_, ?_, ?_, ?_, ?_⟩ <;>
          simp [Option.orElse, hreg] <;> tauto
    · have s2 : gammaNegCond (lookupF zs "gex") (lookupF rf "impact") (lookupF bm "impact") := by
        by_contra hn
        rw [(tryGammaNegative_eq_none_iff _ _ _).mpr hn] at h2
        exact Option.noConfusion h2
      have hreg := tryGammaNegative_regime h2
      rw [hc, h1, h2]
      refine ⟨?_, ?_, ?_, ?_, ?_, ?_⟩ <;>
        simp [Option.orElse, hreg] <;> tauto
  · have s1 : gammaPosCond (lookupF zs "gex") (lookupF rf "efficiency") (lookupF bm "efficiency") := by
      by_contra hn
      rw [(tryGammaPositive_eq_none_iff _ _ _).mpr hn] at h1
      exact Option.noConfusion h1
    have hreg := tryGammaPositive_regime h1
    rw [hc, h1]
    refine ⟨?_, ?_, ?_, ?_, ?_, ?_⟩ <;>
      simp [Option.orElse, hreg] <;> tauto

/-- C4: `classify` is a pure function implementing a strict priority chain:
`baseline_sufficient = false` yields `UNDETERMINED` with empty triggering
conditions regardless of every other input; otherwise each regime is
returned exactly when its rule fires and no higher-priority rule does
(first satisfied rule wins, in the fixed order Γ⁺, Γ⁻, DD, ABS, DIST),
a rule with a missing required input never fires (illustrated for
`z_gex`), `NEUTRAL` is returned exactly when no rule matches, inputs
satisfying both the Γ⁺ and DD conditions yield Γ⁺, and the result is
determined by the extracted feature values alone (identical inputs give
identical results). -/
theorem classify_is_pure_priority_chain (zs rf bm : List (String × Option ℚ))
    (ret : Option ℚ) :
    (classify zs rf bm ret false = undeterminedResult ∧
      (classify zs rf bm ret false).triggering_conditions = []) ∧
    ((classify zs rf bm ret true).regime = RegimeType.GAMMA_POSITIVE ↔
      gammaPosCond (lookupF zs "gex") (lookupF rf "efficiency") (lookupF bm "efficiency")) ∧
    ((classify zs rf bm ret true).regime = RegimeType.GAMMA_NEGATIVE ↔
      ¬ gammaPosCond (lookupF zs "gex") (lookupF rf "efficiency") (lookupF bm "efficiency") ∧
      gammaNegCond (lookupF zs "gex") (lookupF rf "impact") (lookupF bm "impact")) ∧
    ((classify zs rf bm ret true).regime = RegimeType.DARK_DOMINANT ↔
      ¬ gammaPosCond (lookupF zs "gex") (lookupF rf "efficiency") (lookupF bm "efficiency") ∧
      ¬ gammaNegCond (lookupF zs "gex") (lookupF rf "impact") (lookupF bm "impact") ∧
      darkDominantCond (lookupF rf "dark_share") (lookupF zs "block_intensity")) ∧
    ((classify zs rf bm ret true).regime = RegimeType.ABSORPTION ↔
      ¬ gammaPosCond (lookupF zs "gex") (lookupF rf "efficiency") (lookupF bm "efficiency") ∧
      ¬ gammaNegCond (lookupF zs "gex") (lookupF rf "impact") (lookupF bm "impact") ∧
      ¬ darkDominantCond (lookupF rf "dark_share") (lookupF zs "block_intensity") ∧
      absorptionCond (lookupF zs "dex") ret (lookupF rf "dark_share")) ∧
    ((classify zs rf bm ret true).regime = RegimeType.DISTRIBUTION ↔
      ¬ gammaPosCond (lookupF zs "gex") (lookupF rf "efficiency") (lookupF bm "efficiency") ∧
      ¬ gammaNegCond (lookupF zs "gex") (lookupF rf "impact") (lookupF bm "impact") ∧
      ¬ darkDominantCond (lookupF rf "dark_share") (lookupF zs "block_intensity") ∧
      ¬ absorptionCond (lookupF zs "dex") ret (lookupF rf "dark_share") ∧
      distributionCond (lookupF zs "dex") ret) ∧
    ((classify zs rf bm ret true).regime = RegimeType.NEUTRAL ↔
      ¬ gammaPosCond (lookupF zs "gex") (lookupF rf "efficiency") (lookupF bm "efficiency") ∧
      ¬ gammaNegCond (lookupF zs "gex") (lookupF rf "impact") (lookupF bm "impact") ∧
      ¬ darkDominantCond (lookupF rf "dark_share") (lookupF zs "block_intensity") ∧
      ¬ absorptionCond (lookupF zs "dex") ret (lookupF rf "dark_share") ∧
      ¬ distributionCond (lookupF zs "dex") ret) ∧
    (lookupF zs "gex" = none →
      (classify zs rf bm ret true).regime ≠ RegimeType.GAMMA_POSITIVE ∧
      (classify zs rf bm ret true).regime ≠ RegimeType.GAMMA_NEGATIVE) ∧
    (gammaPosCond (lookupF zs "gex") (lookupF rf "efficiency") (lookupF bm "efficiency") ∧
      darkDominantCond (lookupF rf "dark_share") (lookupF zs "block_intensity") →
      (classify zs rf bm ret true).regime = RegimeType.GAMMA_POSITIVE) ∧
    (∀ (zs' rf' bm' : List (String × Option ℚ)) (b : Bool),
      lookupF zs' "gex" = lookupF zs "gex" →
      lookupF zs' "dex" = lookupF zs "dex" →
      lookupF zs' "block_intensity" = lookupF zs "block_intensity" →
      lookupF rf' "dark_share" = lookupF rf "dark_share" →
      lookupF rf' "efficiency" = lookupF rf "efficiency" →
      lookupF rf' "impact" = lookupF rf "impact" →
      lookupF bm' "efficiency" = lookupF bm "efficiency" →
      lookupF bm' "impact" = lookupF bm "impact" →
      classify zs' rf' bm' ret b = classify zs rf bm ret b) := by
  obtain ⟨i1, i2, i3, i4, i5, i6⟩ := classify_chain zs rf bm ret
  refine ⟨⟨rfl, rfl⟩, i1, i2, i3, i4, i5, i6, ?_, ?_, ?_⟩
  · intro hnone
    constructor
    · intro hr
      rcases i1.mp hr with ⟨zg, eff, em, hzg, -⟩
      rw [hnone] at hzg
      exact Option.noConfusion hzg
    · intro hr
      rcases (i2.mp hr).2 with ⟨zg, imp, im, hzg, -⟩
      rw [hnone] at hzg
      exact Option.noConfusion hzg
  · intro h
    exact i1.mpr h.1
  · intro zs' rf' bm' b h1 h2 h3 h4 h5 h6 h7 h8
    cases b
    · rfl
    · simp only [classify]
      rw [h1, h2, h3, h4, h5, h6, h7, h8]

/-- C4 witness: a concrete input satisfying both the Γ⁺ and DD conditions
is classified Γ⁺. -/
theorem classify_is_pure_priority_chain_witness :
    (classify [("gex", some 2), ("block_intensity", some 2)]
      [("dark_share", some 0.8), ("efficiency", some 0.003)]
      [("efficiency", some 0.004)] none true).regime = RegimeType.GAMMA_POSITIVE := by
  refine (classify_is_pure_priority_chain _ _ _ _).2.2.2.2.2.2.2.2.1 ⟨?_, ?_⟩
  · exact ⟨2, 0.003, 0.004, rfl, rfl, rfl, by with_unfolding_all decide,
      by with_unfolding_all decide⟩
  · exact ⟨0.8, 2, rfl, rfl, by with_unfolding_all decide,
      by with_unfolding_all decide⟩

/-- C1 counterexample: a daily return of exactly −0.005 does satisfy the
Absorption return condition — the code compares with `>=`, so this input
is classified ABS with the boundary return listed as a satisfied
triggering condition, refuting the claim that boundary returns never
satisfy a rule. -/
theorem classify_boundary_return_counterexample :
    (classify [("dex", some (-2))] [("dark_share", some 0.6)] []
      (some (-0.005)) true).regime = RegimeType.ABSORPTION ∧
    ("Daily_return", ((-0.005 : ℚ), (-0.005 : ℚ), true)) ∈
      (classify [("dex", some (-2))] [("dark_share", some 0.6)] []
        (some (-0.005)) true).triggering_conditions := by
  constructor
  · with_unfolding_all decide
  · with_unfolding_all decide

/-- C1 (amended): with a sufficient baseline, values exactly at a strict
threshold never fire the rule — Z_gex exactly 1.5 never yields Γ⁺ and
dark_share exactly 0.70 never yields DD — but the return conditions of
ABS and DIST are non-strict: a return of exactly −0.005 satisfies the
Absorption return condition and a return of exactly +0.005 satisfies the
Distribution return condition. -/
theorem classify_boundary_semantics (zs rf bm : List (String × Option ℚ))
    (ret : Option ℚ) :
    (lookupF zs "gex" = some 1.5 →
      (classify zs rf bm ret true).regime ≠ RegimeType.GAMMA_POSITIVE) ∧
    (lookupF rf "dark_share" = some 0.70 →
      (classify zs rf bm ret true).regime ≠ RegimeType.DARK_DOMINANT) ∧
    (classify [("dex", some (-2))] [("dark_share", some 0.6)] []
      (some (-0.005)) true).regime = RegimeType.ABSORPTION ∧
    (classify [("dex", some 2)] [] [] (some 0.005) true).regime =
      RegimeType.DISTRIBUTION := by
  obtain ⟨i1, i2, i3, i4, i5, i6⟩ := classify_chain zs rf bm ret
  refine ⟨?_, ?_, by with_unfolding_all decide, by with_unfolding_all decide⟩
  · intro hgex hr
    rcases i1.mp hr with ⟨zg, eff, em, hzg, -, -, hgt, -⟩
    rw [hgex] at hzg
    cases hzg
    revert hgt
    norm_num [Z_GEX_THRESHOLD]
  · intro hds hr
    rcases (i3.mp hr).2.2 with ⟨ds, zb, hds', -, hgt, -⟩
    rw [hds] at hds'
    cases hds'
    revert hgt
    norm_num [DARK_SHARE_DD_THRESHOLD]

/-- C1 witness: at Z_gex exactly 1.5 the Γ⁺ rule does not fire, and at
dark_share exactly 0.70 the DD rule does not fire. -/
theorem classify_boundary_semantics_witness :
    (classify [("gex", some 1.5)] [("efficiency", some 0.003)]
      [("efficiency", some 0.004)] none true).regime ≠ RegimeType.GAMMA_POSITIVE ∧
    (classify [("block_intensity", some 2)] [("dark_share", some 0.70)] []
      none true).regime ≠ RegimeType.DARK_DOMINANT := by
  constructor
  · exact (classify_boundary_semantics [("gex", some 1.5)]
      [("efficiency", some 0.003)] [("efficiency", some 0.004)] none).1 rfl
  · exact (classify_boundary_semantics [("block_intensity", some 2)]
      [("dark_share", some 0.70)] [] none).2.1 rfl

/- ## Scorer lemmas -/

/-- Declarative form of the raw-score contributions: one entry
`(feature, weight * |z|)` per feature that is present, not excluded,
non-`NaN`, and carries nonzero weight. -/
def contribList (weights : List (String × ℚ)) (excluded : List String)
    (z_scores : List (String × Option ℚ)) : List (String × ℚ) :=
  z_scores.filterMap (fun p =>
    match p.2 with
    | some v =>
      if p.1 ∈ excluded ∨ lookupD weights p.1 0 = 0 then none
      else some (p.1, lookupD weights p.1 0 * |v|)
    | none => none)

lemma rawScore_foldl (weights : List (String × ℚ)) (excluded : List String) :
    ∀ (l : List (String × Option ℚ)) (acc : ℚ × List (String × ℚ)),
      l.foldl (rawScoreStep weights excluded) acc =
        (acc.1 + ((contribList weights excluded l).map Prod.snd).sum,
         acc.2 ++ contribList weights excluded l) := by
  intro l
  induction l with
  | nil => intro acc; simp [contribList]
  | cons p t ih =>
    intro acc
    rw [List.foldl_cons, ih]
    rcases p with ⟨f, z⟩
    rcases z with _ | v
    · simp [rawScoreStep, contribList]
    · by_cases hex : f ∈ excluded
      · simp [rawScoreStep, contribList, hex]
      · by_cases hw : lookupD weights f 0 = 0
        · simp [rawScoreStep, contribList, hex, hw]
        · simp only [rawScoreStep, contribList, List.filterMap_cons]
          simp [hex, hw]
          ring_nf

lemma compute_raw_score_eq (s : Scorer) (z : List (String × Option ℚ))
    (ex : Option (List String)) :
    s.compute_raw_score z ex =
      (((contribList s.weights (ex.getD []) z).map Prod.snd).sum,
       contribList s.weights (ex.getD []) z) := by
  unfold Scorer.compute_raw_score
  rw [rawScore_foldl]
  simp

/-- The five-feature z-score map with every z-score equal to 1. -/
def fiveAtOne : List (String × Option ℚ) :=
  [("dark_share", some 1), ("gex", some 1), ("venue_mix", some 1),
   ("block_intensity", some 1), ("iv_rank", some 1)]

/-- The default scorer: window 63, the fixed `FEATURE_WEIGHTS`. -/
def defaultScorer : Scorer := { window := 63, weights := FEATURE_WEIGHTS }

set_option maxHeartbeats 1600000 in
/-- C3: `compute_raw_score` returns exactly the sum, over features that
are present, not excluded, non-`NaN`, and carry nonzero weight, of
`weight * |z|` (together with the matching contribution map); weights
are never renormalized: all five weighted features at z = 1 give raw
score 1.00, and for every excluded subset the raw score is exactly the
sum of the weights of the remaining features. -/
theorem compute_raw_score_weighted_sum :
    (∀ (s : Scorer) (z : List (String × Option ℚ)) (ex : Option (List String)),
      s.compute_raw_score z ex =
        (((contribList s.weights (ex.getD []) z).map Prod.snd).sum,
         contribList s.weights (ex.getD []) z)) ∧
    (defaultScorer.compute_raw_score fiveAtOne none).1 = 1 ∧
    (∀ ex : List String,
      (defaultScorer.compute_raw_score fiveAtOne (some ex)).1 =
        ((FEATURE_WEIGHTS.filter (fun p => decide (¬ p.1 ∈ ex))).map Prod.snd).sum) := by
  have hc : ∀ ex : List String,
      (defaultScorer.compute_raw_score fiveAtOne (some ex)).1 =
        ((FEATURE_WEIGHTS.filter (fun p => decide (¬ p.1 ∈ ex))).map Prod.snd).sum := by
    intro ex
    rw [compute_raw_score_eq]
    have w1 : (0.25 : ℚ) ≠ 0 := by norm_num
    have w2 : (0.20 : ℚ) ≠ 0 := by norm_num
    have w3 : (0.15 : ℚ) ≠ 0 := by norm_num
    by_cases h1 : "dark_share" ∈ ex <;> by_cases h2 : "gex" ∈ ex <;>
      by_cases h3 : "venue_mix" ∈ ex <;> by_cases h4 : "block_intensity" ∈ ex <;>
      by_cases h5 : "iv_rank" ∈ ex <;>
      simp [contribList, fiveAtOne, defaultScorer, FEATURE_WEIGHTS, lookupD,
        List.lookup, w1, w2, w3, h1, h2, h3, h4, h5] <;>
      norm_num
  refine ⟨compute_raw_score_eq, ?_, hc⟩
  rw [compute_raw_score_eq]
  have w1 : (0.25 : ℚ) ≠ 0 := by norm_num
  have w2 : (0.20 : ℚ) ≠ 0 := by norm_num
  have w3 : (0.15 : ℚ) ≠ 0 := by norm_num
  simp [contribList, fiveAtOne, defaultScorer, FEATURE_WEIGHTS, lookupD,
    List.lookup, w1, w2, w3]
  norm_num

/-- Non-`NaN` values of the window that ranks a raw score `r` appended to
`hist`: expanding while the series is shorter than the window, then the
trailing `window` observations (both collapse to a single `drop` at the
last index). -/
def lastWindowVals (w : Nat) (hist : List (Option ℚ)) (r : ℚ) : List ℚ :=
  ((hist ++ [some r]).drop (hist.length + 1 - w)).filterMap id

lemma windowSlice_last (w : Nat) (l : List (Option ℚ)) (h : l ≠ []) :
    windowSlice w true l (l.length - 1) = l.drop (l.length - w) := by
  have hpos : 0 < l.length := List.length_pos.mpr h
  have hidx : l.length - 1 + 1 = l.length := Nat.succ_pred_eq_of_pos hpos
  unfold windowSlice
  by_cases hlt : l.length - 1 < w
  · have hz : l.length - w = 0 := by omega
    simp [hlt, hidx, List.take_length, hz]
  · have harith : l.length - 1 + 1 - w = l.length - w := by omega
    simp [hlt, hidx, List.take_length, harith]

lemma drop_append_singleton_of_le {α : Type} (l : List α) (a : α) (m : Nat)
    (h : m ≤ l.length) : (l ++ [a]).drop m = l.drop m ++ [a] := by
  rw [List.drop_append_eq_append_drop, Nat.sub_eq_zero_of_le h]
  simp

lemma mem_lastWindowVals_self (w : Nat) (hw : 1 ≤ w) (hist : List (Option ℚ))
    (r : ℚ) : r ∈ lastWindowVals w hist r := by
  unfold lastWindowVals
  have hle : hist.length + 1 - w ≤ hist.length := by omega
  rw [drop_append_singleton_of_le hist (some r) _ hle]
  exact List.mem_filterMap.mpr ⟨some r, by simp, rfl⟩

lemma percAt_last (w : Nat) (hw : 1 ≤ w) (hist : List (Option ℚ)) (r : ℚ) :
    percAt w true (hist ++ [some r]) ((hist ++ [some r]).length - 1) =
      some ((((lastWindowVals w hist r).filter (fun v => decide (v ≤ r))).length : ℚ) /
        ((lastWindowVals w hist r).length : ℚ) * 100) := by
  have hne : hist ++ [some r] ≠ [] := by simp
  have hlen : (hist ++ [some r]).length = hist.length + 1 := by simp
  have hws := windowSlice_last w (hist ++ [some r]) hne
  have hvals : (windowSlice w true (hist ++ [some r])
      ((hist ++ [some r]).length - 1)).filterMap id = lastWindowVals w hist r := by
    rw [hws, hlen]
    rfl
  have hmem := mem_lastWindowVals_self w hw hist r
  have hlen0 : (lastWindowVals w hist r).length ≠ 0 := by
    intro h0
    rw [List.length_eq_zero] at h0
    rw [h0] at hmem
    exact List.not_mem_nil r hmem
  have hcur : (hist ++ [some r]).get? ((hist ++ [some r]).length - 1) =
      some (some r) := by
    rw [hlen]
    simp [List.get?_eq_getElem?, List.getElem?_append_right (Nat.le_refl hist.length)]
  unfold percAt
  rw [hvals, hcur]
  simp [hlen0]

lemma compute_percentile_scores_getLast (s : Scorer) (l : List (Option ℚ))
    (hne : l ≠ []) :
    (s.compute_percentile_scores l true).getLast? =
      some (percAt s.window true l (l.length - 1)) := by
  have hpos : 0 < l.length := List.length_pos.mpr hne
  unfold Scorer.compute_percentile_scores
  rw [List.getLast?_eq_getElem?]
  simp only [List.length_map, List.length_range, List.getElem?_map,
    List.getElem?_range (Nat.sub_lt hpos one_pos)]
  rfl

lemma compute_score_percentile_eq (s : Scorer) (hw : 1 ≤ s.window)
    (z : List (String × Option ℚ)) (ex : Option (List String))
    (hist : List (Option ℚ)) :
    (s.compute_score z (some hist) ex).percentile_score =
      some ((((lastWindowVals s.window hist (s.compute_raw_score z ex).1).filter
          (fun v => decide (v ≤ (s.compute_raw_score z ex).1))).length : ℚ) /
        ((lastWindowVals s.window hist (s.compute_raw_score z ex).1).length : ℚ) * 100) := by
  unfold Scorer.compute_score
  simp only
  rw [compute_percentile_scores_getLast s (hist ++ [some (s.compute_raw_score z ex).1])
    (by simp), percAt_last s.window hw hist (s.compute_raw_score z ex).1]

lemma rank_formula_eq_100 (vals : List ℚ) (r : ℚ) (hmem : r ∈ vals)
    (hall : ∀ v ∈ vals, v ≤ r) :
    ((vals.filter (fun v => decide (v ≤ r))).length : ℚ) / (vals.length : ℚ) * 100 = 100 := by
  rw [List.filter_eq_self.mpr (fun a ha => by simpa using hall a ha)]
  have hne : (vals.length : ℚ) ≠ 0 := by
    have := List.length_pos.mpr (List.ne_nil_of_mem hmem)
    exact_mod_cast this.ne'
  field_simp

lemma mem_drop_append_singleton {α : Type} {x a : α} (l : List α) (m : Nat)
    (hx : x ∈ (l ++ [a]).drop m) : x ∈ l.drop (m - 1) ∨ x = a := by
  rcases m with _ | m'
  · have hx' : x ∈ l ∨ x = a := by simpa using hx
    rcases hx' with h | h
    · exact Or.inl (by simpa using h)
    · exact Or.inr h
  · rw [List.drop_append_eq_append_drop] at hx
    rcases List.mem_append.mp hx with h | h
    · left
      have hsub : l.drop (m' + 1) ⊆ l.drop m' := by
        intro y hy
        have e : (l.drop m').drop 1 = l.drop (m' + 1) := List.drop_drop 1 m' l
        rw [← e] at hy
        exact List.drop_subset 1 (l.drop m') hy
      simpa using hsub h
    · right
      have := List.drop_subset (m' + 1 - l.length) [a] h
      simpa using this

lemma lastWindowVals_append (w : Nat) (hist : List (Option ℚ)) (r : ℚ) :
    ∀ v ∈ lastWindowVals w (hist ++ [some r]) r,
      v ∈ lastWindowVals w hist r ∨ v = r := by
  intro v hv
  unfold lastWindowVals at hv
  rcases List.mem_filterMap.mp hv with ⟨o, ho, hid⟩
  have harith : (hist ++ [some r]).length + 1 - w - 1 = hist.length + 1 - w := by
    simp only [List.length_append, List.length_singleton]
    omega
  rcases mem_drop_append_singleton (hist ++ [some r]) _ ho with h | h
  · rw [harith] at h
    exact Or.inl (List.mem_filterMap.mpr ⟨o, h, hid⟩)
  · right
    rw [h] at hid
    exact (Option.some_inj.mp hid).symm

/-- C5: `compute_score` appends the current raw score to the provided
history and ranks it within its own window, inclusive of itself: the
percentile equals (count of non-`NaN` window values ≤ current) divided by
(number of non-`NaN` window values) times 100; whenever the current raw
score bounds every value of its window from above the percentile is
exactly 100, and appending the identical observation again still yields
100. -/
theorem compute_score_percentile_rank (s : Scorer) (hw : 1 ≤ s.window)
    (z : List (String × Option ℚ)) (ex : Option (List String))
    (hist : List (Option ℚ)) :
    (s.compute_score z (some hist) ex).raw_score = (s.compute_raw_score z ex).1 ∧
    (s.compute_score z (some hist) ex).percentile_score =
      some ((((lastWindowVals s.window hist (s.compute_raw_score z ex).1).filter
          (fun v => decide (v ≤ (s.compute_raw_score z ex).1))).length : ℚ) /
        ((lastWindowVals s.window hist (s.compute_raw_score z ex).1).length : ℚ) * 100) ∧
    ((∀ v ∈ lastWindowVals s.window hist (s.compute_raw_score z ex).1,
        v ≤ (s.compute_raw_score z ex).1) →
      (s.compute_score z (some hist) ex).percentile_score = some 100) ∧
    ((∀ v ∈ lastWindowVals s.window hist (s.compute_raw_score z ex).1,
        v ≤ (s.compute_raw_score z ex).1) →
      (s.compute_score z
        (some (hist ++ [some (s.compute_raw_score z ex).1])) ex).percentile_score =
        some 100) := by
  refine ⟨rfl, compute_score_percentile_eq s hw z ex hist, ?_, ?_⟩
  · intro hall
    rw [compute_score_percentile_eq s hw z ex hist,
      rank_formula_eq_100 _ _ (mem_lastWindowVals_self _ hw hist _) hall]
  · intro hall
    rw [compute_score_percentile_eq s hw z ex
      (hist ++ [some (s.compute_raw_score z ex).1])]
    rw [rank_formula_eq_100 _ _ (mem_lastWindowVals_self _ hw _ _) ?_]
    intro v hv
    rcases lastWindowVals_append s.window hist (s.compute_raw_score z ex).1 v hv with h | h
    · exact hall v h
    · exact le_of_eq h

/-- C5 witness: with the default scorer, a raw score that is the maximum
of its window is ranked at percentile 100. -/
theorem compute_score_percentile_rank_witness :
    (defaultScorer.compute_score [("gex", some 2)]
      (some [some 0.25, none]) none).percentile_score = some 100 :=
  (compute_score_percentile_rank defaultScorer (by with_unfolding_all decide)
    [("gex", some 2)] none [some 0.25, none]).2.2.1 (by with_unfolding_all decide)

/-- C10: when every entry of the z-score map is excluded, `NaN`, or
carries zero weight (including the empty map), `compute_raw_score`
returns exactly `(0.0, {})`, and `compute_score` then ranks that 0.0
against the score history as a real observation (the percentile is a
number, not `NaN`, computed by ranking 0 in its own window). -/
theorem compute_raw_score_all_invalid (s : Scorer) (hw : 1 ≤ s.window)
    (z : List (String × Option ℚ)) (ex : Option (List String))
    (hist : List (Option ℚ))
    (h : ∀ p ∈ z, p.1 ∈ ex.getD [] ∨ p.2 = none ∨ lookupD s.weights p.1 0 = 0) :
    s.compute_raw_score z ex = (0, []) ∧
    (s.compute_score z (some hist) ex).raw_score = 0 ∧
    (s.compute_score z (some hist) ex).feature_contributions = [] ∧
    (s.compute_score z (some hist) ex).percentile_score =
      some ((((lastWindowVals s.window hist 0).filter
          (fun v => decide (v ≤ (0 : ℚ)))).length : ℚ) /
        ((lastWindowVals s.window hist 0).length : ℚ) * 100) := by
  have hcl : contribList s.weights (ex.getD []) z = [] := by
    unfold contribList
    rw [List.filterMap_eq_nil]
    intro p hp
    rcases p with ⟨f, zv⟩
    rcases zv with _ | v
    · rfl
    · rcases h (f, some v) hp with h1 | h2 | h3
      · simp at h1 ⊢
        exact fun hn => absurd h1 hn
      · exact absurd h2 (by simp)
      · simp at h3 ⊢
        exact fun _ => h3
  have hmain : s.compute_raw_score z ex = (0, []) := by
    rw [compute_raw_score_eq, hcl]
    simp
  have hr0 : (s.compute_raw_score z ex).1 = 0 := by rw [hmain]
  refine ⟨hmain, ?_, ?_, ?_⟩
  · show (s.compute_raw_score z ex).1 = 0
    exact hr0
  · show (s.compute_raw_score z ex).2 = []
    rw [hmain]
  · have := compute_score_percentile_eq s hw z ex hist
    rw [hr0] at this
    exact this

/-- C10 witness: a z-score map whose entries are all `NaN` or zero-weight
yields raw score 0 with empty contributions, and the 0 is ranked against
the history `[1.0]` as a real observation (percentile 50). -/
theorem compute_raw_score_all_invalid_witness :
    (defaultScorer.compute_raw_score [("gex", none), ("mystery", some 3)] none) = (0, []) ∧
    (defaultScorer.compute_score [("gex", none), ("mystery", some 3)]
      (some [some 1]) none).percentile_score = some 50 := by
  have h := compute_raw_score_all_invalid defaultScorer
    (by with_unfolding_all decide) [("gex", none), ("mystery", some 3)] none [some 1]
    (by with_unfolding_all decide)
  refine ⟨h.1, ?_⟩
  rw [h.2.2.2]
  with_unfolding_all decide

/- ## Baseline lemmas -/

lemma sampleVarQ_nonneg (l : List ℚ) (v : ℚ) (h : sampleVarQ l = some v) :
    0 ≤ v := by
  unfold sampleVarQ at h
  split at h
  · exact Option.noConfusion h
  · rename_i hlen
    have h2 : 2 ≤ l.length := not_lt.mp hlen
    rw [Option.some_inj] at h
    rw [← h]
    apply div_nonneg
    · apply List.sum_nonneg
      intro x hx
      rcases List.mem_map.mp hx with ⟨y, -, hy⟩
      rw [← hy]
      positivity
    · have : (2 : ℚ) ≤ (l.length : ℚ) := by exact_mod_cast h2
      linarith

lemma meanQ_isSome (l : List ℚ) (h : l ≠ []) : ∃ m, meanQ l = some m := by
  unfold meanQ
  rw [if_neg (by simpa [List.length_eq_zero] using h)]
  exact ⟨_, rfl⟩

lemma sampleVarQ_isSome (l : List ℚ) (h : 2 ≤ l.length) :
    ∃ v, sampleVarQ l = some v := by
  unfold sampleVarQ
  rw [if_neg (not_lt.mpr h)]
  exact ⟨_, rfl⟩

lemma compute_z_scores_getD (b : Baseline) (sq : ℚ → ℚ)
    (data : List (Option ℚ)) (ue : Bool) (i : Nat) (hi : i < data.length) :
    (b.compute_z_scores sq data ue).getD i none = zAt b sq ue data i := by
  unfold Baseline.compute_z_scores
  rw [List.getD_eq_getElem?_getD, List.getElem?_map, List.getElem?_range hi]
  rfl

lemma mkBaselineStats_mean (m s md : Option ℚ) (n : Nat) (b : Bool) :
    (mkBaselineStats m s md n b).mean = m := rfl

lemma mkBaselineStats_std (m s md : Option ℚ) (n : Nat) (b : Bool) :
    (mkBaselineStats m s md n b).std = s := rfl

lemma statsAt_std_zero_iff (b : Baseline) (sq : ℚ → ℚ)
    (hsq : ∀ x, 0 ≤ x → (sq x = 0 ↔ x = 0)) (hmp : 2 ≤ b.min_periods)
    (data : List (Option ℚ)) (ue : Bool) (i : Nat)
    (hvalid : b.min_periods ≤ ((windowSlice b.window ue data i).filterMap id).length) :
    (statsAt b sq ue data i).std = some 0 ↔
      sampleVarQ ((windowSlice b.window ue data i).filterMap id) = some 0 := by
  obtain ⟨v, hv⟩ := sampleVarQ_isSome _ (le_trans hmp hvalid)
  have hv0 := sampleVarQ_nonneg _ v hv
  unfold statsAt
  rw [if_pos hvalid, mkBaselineStats_std, hv]
  constructor
  · intro h0
    have hsv : sq v = 0 := by simpa using h0
    have hv00 : v = 0 := (hsq v hv0).mp hsv
    simp [hv00]
  · intro h0
    have hv00 : v = 0 := by simpa using h0
    have hsv : sq v = 0 := by
      rw [hv00]
      exact (hsq 0 le_rfl).mpr rfl
    simp [hsv]

/-- C2: for every feature series and index, the z-score at the index is
missing exactly when the input value is missing, the window has fewer
than `min_periods` valid observations, or the window standard deviation
is exactly 0 (equivalently, with a genuine square root, when the sample
variance is 0); otherwise it equals `(value − mean) / std`; the
computation is total and length-preserving (never raises). -/
theorem compute_z_scores_missing_iff (b : Baseline) (sq : ℚ → ℚ)
    (hsq : ∀ x, 0 ≤ x → (sq x = 0 ↔ x = 0)) (hmp : 2 ≤ b.min_periods)
    (data : List (Option ℚ)) (ue : Bool) (i : Nat) (hi : i < data.length) :
    (b.compute_z_scores sq data ue).length = data.length ∧
    ((b.compute_z_scores sq data ue).getD i none = none ↔
      (data.getD i none = none ∨
       ((windowSlice b.window ue data i).filterMap id).length < b.min_periods ∨
       (statsAt b sq ue data i).std = some 0)) ∧
    (b.min_periods ≤ ((windowSlice b.window ue data i).filterMap id).length →
      ((statsAt b sq ue data i).std = some 0 ↔
        sampleVarQ ((windowSlice b.window ue data i).filterMap id) = some 0)) ∧
    (∀ x m sd, data.getD i none = some x →
      (statsAt b sq ue data i).mean = some m →
      (statsAt b sq ue data i).std = some sd → sd ≠ 0 →
      (b.compute_z_scores sq data ue).getD i none = some ((x - m) / sd)) := by
  have hlen : (b.compute_z_scores sq data ue).length = data.length := by
    unfold Baseline.compute_z_scores
    simp
  have hsome : ∃ o, data.get? i = some o := by
    rw [List.get?_eq_getElem?]
    exact ⟨_, List.getElem?_eq_getElem hi⟩
  rcases hsome with ⟨o, ho⟩
  have hget : data.getD i none = o := by
    rw [List.getD_eq_getElem?_getD, ← List.get?_eq_getElem?, ho]
    rfl
  have hzd := compute_z_scores_getD b sq data ue i hi
  have hiff := statsAt_std_zero_iff b sq hsq hmp data ue i
  rcases o with _ | x
  · -- input NaN at index i: the z-score is NaN
    have hz : zAt b sq ue data i = none := by
      unfold zAt
      rw [ho]
    refine ⟨hlen, ?_, hiff, ?_⟩
    · rw [hzd, hz]
      constructor
      · intro _
        exact Or.inl hget
      · intro _
        rfl
    · intro x m sd hx
      rw [hget] at hx
      exact absurd hx (by simp)
  · -- input present at index i
    set vals := (windowSlice b.window ue data i).filterMap id with hvals
    by_cases hcount : b.min_periods ≤ vals.length
    · obtain ⟨m, hm⟩ := meanQ_isSome vals (by
        intro hnil
        rw [hnil] at hcount
        simp at hcount
        omega)
      obtain ⟨v, hv⟩ := sampleVarQ_isSome vals (le_trans hmp hcount)
      have hv0 := sampleVarQ_nonneg vals v hv
      have hmean : (statsAt b sq ue data i).mean = some m := by
        simp only [statsAt]
        rw [← hvals, if_pos hcount, mkBaselineStats_mean, hm]
      have hstd : (statsAt b sq ue data i).std = some (sq v) := by
        simp only [statsAt]
        rw [← hvals, if_pos hcount, mkBaselineStats_std, hv]
        rfl
      have hz : (b.compute_z_scores sq data ue).getD i none =
          if sq v = 0 then none else some ((x - m) / sq v) := by
        rw [hzd]
        simp only [zAt, ho]
        rw [hmean, hstd]
      refine ⟨hlen, ?_, hiff, ?_⟩
      · rw [hz]
        constructor
        · intro hnone
          by_cases h0 : sq v = 0
          · right; right
            rw [hstd, h0]
          · rw [if_neg h0] at hnone
            exact absurd hnone (by simp)
        · intro hcase
          rcases hcase with h1 | h2 | h3
          · rw [hget] at h1
            exact absurd h1 (by simp)
          · omega
          · rw [hstd, Option.some_inj] at h3
            rw [if_pos h3]
      · intro x' m' sd hx' hm' hsd hsd0
        rw [hget, Option.some_inj] at hx'
        rw [hmean, Option.some_inj] at hm'
        rw [hstd, Option.some_inj] at hsd
        rw [hz, if_neg (hsd ▸ hsd0), hx', hm', hsd]
    · have hmean : (statsAt b sq ue data i).mean = none := by
        simp only [statsAt]
        rw [← hvals, if_neg hcount, mkBaselineStats_mean]
      have hz : zAt b sq ue data i = none := by
        simp only [zAt, ho]
        rw [hmean]
      refine ⟨hlen, ?_, ?_, ?_⟩
      · rw [hzd, hz]
        simp only [true_iff]
        right
        left
        exact not_le.mp hcount
      · intro hvalid
        exact absurd hvalid hcount
      · intro x' m' sd hx' hm' hsd hsd0
        rw [hmean] at hm'
        exact absurd hm' (by simp)

/-- C2 witness: window 3, min_periods 2, data `[1, 2, 1]`: at index 2 the
input is present, the window holds 3 valid observations, and the standard
deviation is nonzero, so the z-score is defined. -/
theorem compute_z_scores_missing_iff_witness :
    ((⟨3, 2, 1/10⟩ : Baseline).compute_z_scores (fun q => if q = 0 then 0 else 1)
      [some 1, some 2, some 1] true).getD 2 none ≠ none := by
  have h := compute_z_scores_missing_iff ⟨3, 2, 1/10⟩
    (fun q => if q = 0 then 0 else 1)
    (fun x _ => by by_cases hx : x = 0 <;> simp [hx])
    (by decide) [some 1, some 2, some 1] true 2 (by decide)
  intro hz
  rcases h.2.1.mp hz with h1 | h2 | h3
  · exact absurd h1 (by with_unfolding_all decide)
  · exact absurd h2 (by with_unfolding_all decide)
  · exact absurd h3 (by with_unfolding_all decide)

/-- C6 counterexample: a Scorer constructed with weights summing to 0.8
is NOT rejected — construction succeeds (returning the object, with the
`UserWarning` flag set) instead of raising an error. -/
theorem scorer_init_bad_weights_counterexample :
    Scorer.init 63 (some [("gex", 0.5), ("dark_share", 0.3)]) =
      Except.ok ({ window := 63, weights := [("gex", 0.5), ("dark_share", 0.3)] }, true) := by
  with_unfolding_all rfl

/-- C6 (amended): construction is fail-fast only for the window checks —
`Baseline` with `window < min_periods` raises, and `Scorer` with
`window < 1` raises — but a `Scorer` whose weights do not sum to
approximately 1.0 is still created: construction succeeds and merely
emits a `UserWarning` exactly when the sum falls outside [0.99, 1.01]. -/
theorem init_fail_fast (w m : Nat) (d : ℚ) (win : Nat)
    (wts : List (String × ℚ)) :
    (w < m → ∃ e, Baseline.init w m d = Except.error e) ∧
    (win < 1 → ∃ e, Scorer.init win (some wts) = Except.error e) ∧
    (1 ≤ win → Scorer.init win (some wts) =
      Except.ok ({ window := win, weights := wts },
        !(decide ((0.99 : ℚ) ≤ (wts.map Prod.snd).sum) &&
          decide ((wts.map Prod.snd).sum ≤ (1.01 : ℚ))))) := by
  refine ⟨?_, ?_, ?_⟩
  · intro hlt
    exact ⟨_, by unfold Baseline.init; rw [if_pos hlt]⟩
  · intro hlt
    exact ⟨_, by unfold Scorer.init; rw [if_pos hlt]⟩
  · intro hge
    unfold Scorer.init
    rw [if_neg (by omega)]
    rfl

/-- C6 witness: `Baseline(window=1, min_periods=2)` raises, `Scorer`
with `window=0` raises, and a `Scorer` with weights summing to exactly 1
is created without a warning. -/
theorem init_fail_fast_witness :
    (∃ e, Baseline.init 1 2 0.1 = Except.error e) ∧
    (∃ e, Scorer.init 0 (some FEATURE_WEIGHTS) = Except.error e) ∧
    Scorer.init 63 (some [("gex", (1 : ℚ))]) =
      Except.ok ({ window := 63, weights := [("gex", (1 : ℚ))] }, false) := by
  have h := init_fail_fast 1 2 0.1 0 FEATURE_WEIGHTS
  refine ⟨h.1 (by decide), h.2.1 (by decide), ?_⟩
  have h2 := (init_fail_fast 1 2 0.1 63 [("gex", (1 : ℚ))]).2.2 (by decide)
  rw [h2]
  with_unfolding_all rfl

/- ## Universe lemmas -/

lemma resetInactive_keys (f : List (String × FocusEntry)) (t : String) :
    (resetInactive f t).map Prod.fst = f.map Prod.fst := by
  unfold resetInactive
  induction f with
  | nil => rfl
  | cons p rest ih =>
    simp only [List.map_cons, List.map_map] at ih ⊢
    by_cases h : p.1 = t <;> simp [h, ih]

/-- One mutating call to the universe manager (a promotion of any of the
three kinds with arbitrary arguments). -/
inductive UOp
  | structural (ticker index : String) (rank entry_date : Nat)
  | stressed (ticker : String) (unusualness z_gex dark_share : Option ℚ)
      (entry_date : Nat) (z_block : Option ℚ)
  | event (ticker event_type : String) (event_date entry_date : Nat)

/-- The ticker argument of a universe operation. -/
def UOp.ticker : UOp → String
  | .structural t _ _ _ => t
  | .stressed t _ _ _ _ _ => t
  | .event t _ _ _ => t

/-- Apply one promotion call to the universe state. -/
def applyUOp (s : UniverseState) : UOp → UniverseState
  | .structural t idx r d => (promote_structural s t idx r d).2
  | .stressed t u zg ds d zb => (promote_if_stressed s t u zg ds d zb).2
  | .event t et ed d => (promote_event s t et ed d).2

lemma focus_keys_applyUOp (s : UniverseState) (op : UOp) :
    ∀ t ∈ (applyUOp s op).focus.map Prod.fst,
      t ∈ s.focus.map Prod.fst ∨ t = pyUpper op.ticker := by
  intro t ht
  rcases op with ⟨tk, idx, r, d⟩ | ⟨tk, u, zg, ds, d, zb⟩ | ⟨tk, et, ed, d⟩
  · simp only [applyUOp, promote_structural] at ht
    by_cases hl : (s.focus.lookup (pyUpper tk)).isSome
    · rw [if_pos hl] at ht
      simp only [resetInactive_keys] at ht
      exact Or.inl ht
    · rw [if_neg hl] at ht
      by_cases hr : (if idx = "SPY" then 15 else 10) < r
      · rw [if_pos hr] at ht
        exact Or.inl ht
      · rw [if_neg hr] at ht
        simp only [List.map_append, List.map_cons, List.map_nil] at ht
        rcases List.mem_append.mp ht with h | h
        · exact Or.inl h
        · exact Or.inr (by simpa [UOp.ticker] using h)
  · simp only [applyUOp, promote_if_stressed] at ht
    by_cases hre : stressReasons u zg ds zb = []
    · rw [if_pos hre] at ht
      exact Or.inl ht
    · rw [if_neg hre] at ht
      by_cases hl : (s.focus.lookup (pyUpper tk)).isSome
      · rw [if_pos hl] at ht
        simp only [resetInactive_keys] at ht
        exact Or.inl ht
      · rw [if_neg hl] at ht
        simp only [List.map_append, List.map_cons, List.map_nil] at ht
        rcases List.mem_append.mp ht with h | h
        · exact Or.inl h
        · exact Or.inr (by simpa [UOp.ticker] using h)
  · simp only [applyUOp, promote_event] at ht
    by_cases hl : (s.focus.lookup (pyUpper tk)).isSome
    · rw [if_pos hl] at ht
      simp only [resetInactive_keys] at ht
      exact Or.inl ht
    · rw [if_neg hl] at ht
      simp only [List.map_append, List.map_cons, List.map_nil] at ht
      rcases List.mem_append.mp ht with h | h
      · exact Or.inl h
      · exact Or.inr (by simpa [UOp.ticker] using h)

lemma foldl_focus_invariant : ∀ (ops : List UOp) (s : UniverseState),
    (∀ op ∈ ops, pyUpper (UOp.ticker op) ∉ CORE_TICKERS) →
    (∀ t ∈ s.focus.map Prod.fst, t ∉ CORE_TICKERS) →
    ∀ t ∈ ((ops.foldl applyUOp s).focus.map Prod.fst), t ∉ CORE_TICKERS := by
  intro ops
  induction ops with
  | nil =>
    intro s _ hs
    simpa using hs
  | cons op rest ih =>
    intro s hops hs
    rw [List.foldl_cons]
    apply ih _ (fun o ho => hops o (List.mem_cons_of_mem _ ho))
    intro t ht
    rcases focus_keys_applyUOp s op t ht with h1 | h2
    · exact hs t h1
    · rw [h2]
      exact hops op (List.mem_cons_self _ _)

/-- C7 counterexample: the promotion methods never check CORE membership,
so a single `promote_event` call with ticker "SPY" puts the CORE ticker
SPY into FOCUS, violating the claimed invariant for arbitrary arguments. -/
theorem core_in_focus_counterexample :
    "SPY" ∈ CORE_TICKERS ∧
    ((promote_event initialUniverseState "SPY" "macro" 0 0).2.focus.map Prod.fst)
      = ["SPY"] := by
  constructor
  · decide
  · decide

/-- C7 (amended): the CORE∩FOCUS=∅ invariant holds only under the calling
discipline in which no promotion call passes a CORE ticker: starting from
the initial state, after any sequence of promote_structural,
promote_if_stressed, and promote_event calls whose (uppercased) ticker
arguments avoid CORE, no CORE ticker is ever a key of FOCUS. -/
theorem universe_core_focus_invariant (ops : List UOp)
    (h : ∀ op ∈ ops, pyUpper (UOp.ticker op) ∉ CORE_TICKERS) :
    ∀ t ∈ ((ops.foldl applyUOp initialUniverseState).focus.map Prod.fst),
      t ∉ CORE_TICKERS :=
  foldl_focus_invariant ops initialUniverseState h (by simp [initialUniverseState])

/-- C7 witness: after promoting "nvda" by event, SPY is not a FOCUS key. -/
theorem universe_core_focus_invariant_witness :
    "SPY" ∉ (([UOp.event "nvda" "earnings" 0 0].foldl applyUOp
      initialUniverseState).focus.map Prod.fst) :=
  fun h => universe_core_focus_invariant [UOp.event "nvda" "earnings" 0 0]
    (by decide) "SPY" h (by decide)

/-- C9 counterexample: at the manager level a `promote_structural` call
attributed to IWM with rank 5 does promote the ticker (the IWM threshold
in `promote_structural` is 10, not "none"). -/
theorem promote_structural_iwm_counterexample :
    (promote_structural initialUniverseState "XYZ" "IWM" 5 0).1 = true ∧
    "XYZ" ∈ ((promote_structural initialUniverseState "XYZ" "IWM" 5 0).2.focus.map
      Prod.fst) := by
  constructor
  · decide
  · decide

/-- C9 (amended): `promote_structural` promotes a not-yet-tracked ticker
iff rank ≤ 15 for SPY and rank ≤ 10 for every other index — including
IWM. The IWM-contributes-none guarantee lives one layer up: the
structural-fetch thresholds (`STRUCTURAL_THRESHOLDS`) contain no entry
for IWM (only SPY 15, QQQ 10, DIA 10), so the fetch layer never produces
IWM-attributed promotions. -/
theorem promote_structural_thresholds (s : UniverseState) (t idx : String)
    (rank d : Nat) (hnot : s.focus.lookup (pyUpper t) = none) :
    ((promote_structural s t idx rank d).1 = true ↔
      rank ≤ (if idx = "SPY" then 15 else 10)) ∧
    STRUCTURAL_THRESHOLDS.lookup "IWM" = none ∧
    (∀ etf n, (etf, n) ∈ STRUCTURAL_THRESHOLDS →
      (etf = "SPY" ∧ n = 15) ∨ (etf = "QQQ" ∧ n = 10) ∨ (etf = "DIA" ∧ n = 10)) := by
  refine ⟨?_, by decide, ?_⟩
  · simp only [promote_structural, hnot, Option.isSome_none]
    set th := (if idx = "SPY" then (15 : Nat) else 10) with hth
    by_cases hr : th < rank
    · simp [hr]
      try omega
    · simp [hr]
      try omega
  · intro etf n h
    simp only [STRUCTURAL_THRESHOLDS, List.mem_cons, List.not_mem_nil, or_false,
      Prod.mk.injEq] at h
    rcases h with ⟨rfl, rfl⟩ | ⟨rfl, rfl⟩ | ⟨rfl, rfl⟩ <;> simp

/-- C9 witness: SPY rank 15 promotes (boundary of the SPY threshold). -/
theorem promote_structural_thresholds_witness :
    (promote_structural initialUniverseState "ABC" "SPY" 15 0).1 = true :=
  (promote_structural_thresholds initialUniverseState "ABC" "SPY" 15 0 rfl).1.mpr
    (by decide)

/- ## Cap-enforcement lemmas -/

lemma lexLe_total (p q : ℚ × ℚ) : lexLe p q ∨ lexLe q p := by
  unfold lexLe
  rcases lt_trichotomy p.1 q.1 with h | h | h
  · exact Or.inl (Or.inl h)
  · rcases le_total p.2 q.2 with h2 | h2
    · exact Or.inl (Or.inr ⟨h, h2⟩)
    · exact Or.inr (Or.inr ⟨h.symm, h2⟩)
  · exact Or.inr (Or.inl h)

lemma lexLe_trans (p q r : ℚ × ℚ) (h1 : lexLe p q) (h2 : lexLe q r) :
    lexLe p r := by
  unfold lexLe at h1 h2 ⊢
  rcases h1 with h1 | ⟨e1, l1⟩ <;> rcases h2 with h2 | ⟨e2, l2⟩
  · exact Or.inl (h1.trans h2)
  · exact Or.inl (e2 ▸ h1)
  · exact Or.inl (e1 ▸ h2)
  · exact Or.inr ⟨e1.trans e2, l1.trans l2⟩

lemma length_filter_not {α : Type} (p : α → Bool) (l : List α) :
    (l.filter (fun a => !(p a))).length = l.length - (l.filter p).length := by
  induction l with
  | nil => rfl
  | cons a t ih =>
    have hle := List.length_filter_le p t
    by_cases h : p a <;> simp [h, ih] <;> omega

lemma length_filter_mem {keys rem : List String} (hk : keys.Nodup)
    (hr : rem.Nodup) (hsub : rem ⊆ keys) :
    (keys.filter (fun t => decide (t ∈ rem))).length = rem.length := by
  have hperm : List.Perm (keys.filter (fun t => decide (t ∈ rem))) rem :=
    (List.perm_ext_iff_of_nodup (hk.filter _) hr).mpr (fun a => by
      simp only [List.mem_filter, decide_eq_true_eq]
      exact ⟨fun h => h.2, fun h => ⟨hsub h, h⟩⟩)
  exact hperm.length_eq

lemma structuralKeys_sublist (s : UniverseState) :
    (structuralKeys s).Sublist (s.focus.map Prod.fst) :=
  (List.filter_sublist s.focus).map Prod.fst

lemma nonStructuralKeys_length (s : UniverseState)
    (hnd : (s.focus.map Prod.fst).Nodup) :
    (nonStructuralKeys s).length = s.focus.length - (structuralKeys s).length := by
  have hSKnd : (structuralKeys s).Nodup := hnd.sublist (structuralKeys_sublist s)
  have hSKsub : structuralKeys s ⊆ s.focus.map Prod.fst :=
    (structuralKeys_sublist s).subset
  unfold nonStructuralKeys
  have he : (s.focus.map Prod.fst).filter (fun t => decide (¬ t ∈ structuralKeys s)) =
      (s.focus.map Prod.fst).filter (fun t => !(decide (t ∈ structuralKeys s))) := by
    apply List.filter_congr
    intro a _
    simp
  rw [he, length_filter_not, length_filter_mem hnd hSKnd hSKsub, List.length_map]

/-- C8: `enforce_focus_cap` removes nothing when FOCUS is within the cap
or when the structural entries alone reach the cap; otherwise it removes
exactly `|FOCUS| − N` entries, never a structural one (every structural
entry survives), every removed entry ranks no higher than any kept
non-structural entry under (score desc, |Z_gex| desc), and the surviving
FOCUS map is exactly the original minus the removed keys. -/
theorem enforce_focus_cap_spec (s : UniverseState) (N : Nat)
    (scores zg : List (String × ℚ)) (hnd : (s.focus.map Prod.fst).Nodup) :
    (s.focus.length ≤ N → enforce_focus_cap s N scores zg = ([], s)) ∧
    (N ≤ (structuralKeys s).length → enforce_focus_cap s N scores zg = ([], s)) ∧
    (N < s.focus.length → (structuralKeys s).length < N →
      ((enforce_focus_cap s N scores zg).1.length = s.focus.length - N ∧
       (∀ t ∈ (enforce_focus_cap s N scores zg).1, t ∉ structuralKeys s) ∧
       (∀ p ∈ s.focus, p.2.reason = FocusReason.structural →
          p ∈ (enforce_focus_cap s N scores zg).2.focus) ∧
       (∀ k ∈ nonStructuralKeys s, k ∉ (enforce_focus_cap s N scores zg).1 →
          ∀ t ∈ (enforce_focus_cap s N scores zg).1,
            lexLe (capKey scores zg t) (capKey scores zg k)) ∧
       (enforce_focus_cap s N scores zg).2.focus =
         s.focus.filter (fun p => decide (¬ p.1 ∈ (enforce_focus_cap s N scores zg).1)))) := by
  refine ⟨?_, ?_, ?_⟩
  · intro h1
    unfold enforce_focus_cap
    rw [if_pos h1]
  · intro h2
    unfold enforce_focus_cap
    by_cases h1 : s.focus.length ≤ N
    · rw [if_pos h1]
    · rw [if_neg h1, if_pos h2]
  · intro h1 h2
    haveI hTot : IsTotal String (capRel scores zg) :=
      ⟨fun a b => lexLe_total (capKey scores zg b) (capKey scores zg a)⟩
    haveI hTr : IsTrans String (capRel scores zg) :=
      ⟨fun a b c hab hbc =>
        lexLe_trans (capKey scores zg c) (capKey scores zg b) (capKey scores zg a) hbc hab⟩
    have hperm := List.perm_insertionSort (capRel scores zg) (nonStructuralKeys s)
    have hsortedP := List.sorted_insertionSort (capRel scores zg) (nonStructuralKeys s)
    have henf : enforce_focus_cap s N scores zg =
        (((nonStructuralKeys s).insertionSort (capRel scores zg)).drop
            (N - (structuralKeys s).length),
         { s with focus := s.focus.filter (fun p => decide (¬ p.1 ∈
            ((nonStructuralKeys s).insertionSort (capRel scores zg)).drop
              (N - (structuralKeys s).length))) }) := by
      unfold enforce_focus_cap
      rw [if_neg (not_le.mpr h1), if_neg (not_le.mpr h2)]
    have hSKle : (structuralKeys s).length ≤ s.focus.length := by
      have := (structuralKeys_sublist s).length_le
      simpa using this
    have hNSlen := nonStructuralKeys_length s hnd
    have hsortlen : ((nonStructuralKeys s).insertionSort (capRel scores zg)).length =
        (nonStructuralKeys s).length := hperm.length_eq
    have hrem_sub_ns : ∀ t ∈ (enforce_focus_cap s N scores zg).1,
        t ∈ nonStructuralKeys s := by
      intro t ht
      rw [henf] at ht
      have hs := List.drop_subset (N - (structuralKeys s).length)
        ((nonStructuralKeys s).insertionSort (capRel scores zg)) ht
      exact hperm.subset hs
    have hns_not_sk : ∀ t ∈ nonStructuralKeys s, t ∉ structuralKeys s := by
      intro t ht
      have := List.mem_filter.mp ht
      simpa using this.2
    refine ⟨?_, ?_, ?_, ?_, ?_⟩
    · rw [henf]
      simp only [List.length_drop]
      omega
    · intro t ht
      exact hns_not_sk t (hrem_sub_ns t ht)
    · intro p hp hq
      rw [henf]
      apply List.mem_filter.mpr
      refine ⟨hp, ?_⟩
      simp only [decide_eq_true_eq]
      intro hrem
      apply hns_not_sk p.1 (hrem_sub_ns p.1 (by rw [henf]; exact hrem))
      unfold structuralKeys
      exact List.mem_map.mpr ⟨p, List.mem_filter.mpr ⟨hp, by simp [hq]⟩, rfl⟩
    · intro k hk hknot t ht
      have hk_sorted : k ∈ (nonStructuralKeys s).insertionSort (capRel scores zg) :=
        hperm.mem_iff.mpr hk
      have hsplit := List.take_append_drop (N - (structuralKeys s).length)
        ((nonStructuralKeys s).insertionSort (capRel scores zg))
      have hpw : ((nonStructuralKeys s).insertionSort (capRel scores zg)).Pairwise
          (capRel scores zg) := hsortedP
      rw [← hsplit] at hpw
      have hparts := List.pairwise_append.mp hpw
      have hk_take : k ∈ ((nonStructuralKeys s).insertionSort (capRel scores zg)).take
          (N - (structuralKeys s).length) := by
        rw [← hsplit] at hk_sorted
        rcases List.mem_append.mp hk_sorted with h | h
        · exact h
        · exact absurd (by rw [henf]; exact h) hknot
      have ht' : t ∈ ((nonStructuralKeys s).insertionSort (capRel scores zg)).drop
          (N - (structuralKeys s).length) := by
        rw [henf] at ht
        exact ht
      exact hparts.2.2 k hk_take t ht'
    · rw [henf]

/-- A three-ticker non-structural FOCUS state used to witness cap
enforcement. -/
def capDemoState : UniverseState :=
  { core := CORE_TICKERS,
    focus := [("A", ⟨"A", 0, FocusReason.stress, "", 0⟩),
              ("B", ⟨"B", 0, FocusReason.stress, "", 0⟩),
              ("C", ⟨"C", 0, FocusReason.stress, "", 0⟩)] }

/-- C8 witness: capping three non-structural entries at 2 removes exactly
one entry. -/
theorem enforce_focus_cap_spec_witness :
    (enforce_focus_cap capDemoState 2 [("A", 10), ("B", 50), ("C", 30)] []).1.length = 1 := by
  have h := ((enforce_focus_cap_spec capDemoState 2 [("A", 10), ("B", 50), ("C", 30)] []
    (by decide)).2.2 (by decide) (by decide)).1
  rw [h]
  decide
